import Mathlib

/-!
# Verification of gh-cascade (main.go)

A shallow embedding of the dependency-resolution and rebase-orchestration
pipeline of `main.go`, together with theorems settling the specification
claims about it.

Conventions of the embedding:
* Go strings are modelled as Lean `String` / `List Char`; the inputs of
  interest (bodies, branch names, commit ids) are ASCII, so byte-length and
  character-length coincide and ASCII case folding models the regexp's
  case-insensitive matching.
* Go machine integers (`int`) are modelled as `Int`, with the 64-bit range
  bound made explicit where `strconv.Atoi` can fail.
* Fallible Go calls return products with an `Option GoErr` component, matching
  the `(value, error)` shape of the source; a Go `panic` (or nil-pointer
  dereference) is modelled as `Option.none` at the level of whole-program
  results.
* External processes (`git`, `gh`) are opaque collaborators: a `World` record
  supplies the outcome of each invocation, and the embedding records which
  operations the program actually performed in a trace of `Op` values.
-/

/-! ## Characters: ASCII folding, whitespace and digits

`regexp` with the `(?i)` flag folds case; on the ASCII inputs of interest this
is the map sending `A`–`Z` (code points 65–90) to `a`–`z`.  In the Go pattern,
`\s` is exactly the class `[\t\n\f\r ]` and `\d` is `[0-9]`. -/

/-- ASCII lower-casing of a character: `A`–`Z` (65–90) map to `a`–`z`
(97–122), every other character is fixed. -/
def lowerChar (c : Char) : Char :=
  if 65 ≤ c.toNat ∧ c.toNat ≤ 90 then Char.ofNat (c.toNat + 32) else c

/-- The Go regexp class `\s`, i.e. exactly tab, newline, form feed, carriage
return and space. -/
def isWs (c : Char) : Bool :=
  decide (c.toNat = 32 ∨ c.toNat = 9 ∨ c.toNat = 10 ∨ c.toNat = 12 ∨ c.toNat = 13)

/-- The Go regexp class `\d`, i.e. exactly `0`–`9`. -/
def isDigitC (c : Char) : Bool :=
  decide (48 ≤ c.toNat ∧ c.toNat ≤ 57)

theorem toNat_ofNat_valid (n : Nat) (h : n.isValidChar) : (Char.ofNat n).toNat = n := by
  simp [Char.ofNat, dif_pos h, Char.ofNatAux, Char.toNat, UInt32.toNat]

theorem lowerChar_toNat (c : Char) :
    (lowerChar c).toNat = if 65 ≤ c.toNat ∧ c.toNat ≤ 90 then c.toNat + 32 else c.toNat := by
  unfold lowerChar
  by_cases h : 65 ≤ c.toNat ∧ c.toNat ≤ 90
  · rw [if_pos h, if_pos h]
    exact toNat_ofNat_valid _ (Or.inl (by omega))
  · rw [if_neg h, if_neg h]

theorem lowerChar_lowerChar (c : Char) : lowerChar (lowerChar c) = lowerChar c := by
  unfold lowerChar
  by_cases h : 65 ≤ c.toNat ∧ c.toNat ≤ 90
  · rw [if_pos h]
    have hv : (Char.ofNat (c.toNat + 32)).toNat = c.toNat + 32 :=
      toNat_ofNat_valid _ (Or.inl (by omega))
    rw [if_neg (by rw [hv]; omega)]
  · rw [if_neg h, if_neg h]

theorem isWs_lowerChar (c : Char) : isWs (lowerChar c) = isWs c := by
  have h := lowerChar_toNat c
  unfold isWs
  by_cases hu : 65 ≤ c.toNat ∧ c.toNat ≤ 90
  · rw [if_pos hu] at h
    rw [h]
    simp only [decide_eq_decide]
    omega
  · rw [if_neg hu] at h
    rw [h]

theorem isDigitC_lowerChar (c : Char) : isDigitC (lowerChar c) = isDigitC c := by
  have h := lowerChar_toNat c
  unfold isDigitC
  by_cases hu : 65 ≤ c.toNat ∧ c.toNat ≤ 90
  · rw [if_pos hu] at h
    rw [h]
    simp only [decide_eq_decide]
    omega
  · rw [if_neg hu] at h
    rw [h]

theorem lowerChar_eq_self_of_isDigitC (c : Char) (h : isDigitC c = true) : lowerChar c = c := by
  unfold isDigitC at h
  unfold lowerChar
  rw [if_neg]
  simp only [decide_eq_true_eq] at h
  omega

/-! ## The dependency pattern

`main.go` line 111 compiles `(?i)depend(?:s|ed|ing)?\s+on:\s+#(\d+)` and
extracts all submatches of every pull-request body with
`FindAllStringSubmatch`.  The matcher below embeds this pattern with Go's
leftmost-first semantics: at each position, `depend` is matched
case-insensitively, then the optional suffix is tried in the order `s`, `ed`,
`ing`, absent (the preference order of a greedy `?` over the alternation),
then whitespace, `on:`, whitespace, `#` and a maximal run of digits — the
capture group.  `FindAllStringSubmatch` scans left to right and continues
after the end of each (non-empty) match. -/

/-- Case-insensitive literal match: the pattern `ps` is given in lower case,
each subject character is folded with `lowerChar` before comparison.  Returns
the rest of the subject on success. -/
def matchLit : List Char → List Char → Option (List Char)
  | [], s => some s
  | _ :: _, [] => none
  | p :: ps, c :: cs => if lowerChar c = p then matchLit ps cs else none

/-- `\s+` with a greedy maximal run: at least one whitespace character, then
every following whitespace character is consumed. -/
def takeWs1 : List Char → Option (List Char)
  | [] => none
  | c :: cs => if isWs c then some (cs.dropWhile isWs) else none

/-- `(\d+)` with a greedy maximal run: at least one digit; returns the
captured digit run and the rest. -/
def takeDigits1 : List Char → Option (List Char × List Char)
  | [] => none
  | c :: cs =>
    if isDigitC c then some (c :: cs.takeWhile isDigitC, cs.dropWhile isDigitC) else none

/-- The part of the pattern after `depend` and the optional suffix:
`\s+on:\s+#(\d+)`. -/
def matchTail (s : List Char) : Option (List Char × List Char) :=
  match takeWs1 s with
  | none => none
  | some s1 =>
    match matchLit [ 'o', 'n', ':'] s1 with
    | none => none
    | some s2 =>
      match takeWs1 s2 with
      | none => none
      | some s3 =>
        match s3 with
        | [] => none
        | c :: s4 => if c = '#' then takeDigits1 s4 else none

/-- One suffix alternative: the literal `pat`, then the tail of the
pattern. -/
def tryLit (pat s0 : List Char) : Option (List Char × List Char) :=
  (matchLit pat s0).bind matchTail

/-- The optional suffix `(?:s|ed|ing)?` followed by the tail, with the greedy
preference order `s`, `ed`, `ing`, absent. -/
def matchSuffix (s0 : List Char) : Option (List Char × List Char) :=
  match tryLit [ 's'] s0 with
  | some r => some r
  | none =>
    match tryLit [ 'e', 'd'] s0 with
    | some r => some r
    | none =>
      match tryLit [ 'i', 'n', 'g'] s0 with
      | some r => some r
      | none => matchTail s0

/-- One anchored attempt of the whole pattern at the head of `s`: on success,
the captured digit run and the rest of the subject after the match. -/
def matchAt (s : List Char) : Option (List Char × List Char) :=
  match matchLit [ 'd', 'e', 'p', 'e', 'n', 'd'] s with
  | none => none
  | some s0 => matchSuffix s0

/-- The scan of `FindAllStringSubmatch`: try the pattern at every position
from the left; on a match, record the capture and continue after the match.
The fuel argument (instantiated with the subject's length, which every step
strictly decreases) makes the recursion structural. -/
def scanAux : Nat → List Char → List (List Char)
  | 0, _ => []
  | _ + 1, [] => []
  | fuel + 1, c :: rest =>
    match matchAt (c :: rest) with
    | some (ds, after) => ds :: scanAux fuel after
    | none => scanAux fuel rest

/-- All capture groups of the dependency pattern in a body, in order of first
appearance, duplicates included. -/
def captures (s : List Char) : List (List Char) :=
  scanAux s.length s

/-- The numeric value of a captured digit run. -/
def digitsToNat (ds : List Char) : Nat :=
  ds.foldl (fun a c => a * 10 + (c.toNat - 48)) 0

/-- The extracted dependency references of a body as integers, in match
order.  This is the value `dependOns` of `main.go` lines 113–123 on every
body for which the `strconv.Atoi` conversions succeed. -/
def refNums (body : String) : List Int :=
  (captures body.data).map fun ds => Int.ofNat (digitsToNat ds)

/-- The largest Go `int` (64-bit) value. -/
def goMaxInt : Nat := 9223372036854775807

/-- Modelled from the contract of the standard-library `strconv.Atoi`,
restricted to the unsigned inputs produced by the capture group `(\d+)` (the
full `Atoi` also accepts a leading sign, which a capture can never contain):
a non-empty all-digit string parses to its value when that value fits a
64-bit `int`, and errs (`ErrRange`) when it does not; an empty or non-digit
string errs (`ErrSyntax`).  `main.go` line 119 panics on any `Atoi` error. -/
def AtoiGo (s : List Char) : Option Int :=
  if s ≠ [] ∧ s.all isDigitC then
    if digitsToNat s ≤ goMaxInt then some (Int.ofNat (digitsToNat s)) else none
  else none

/-- The extraction loop of `main.go` lines 113–123: every capture is converted
with `strconv.Atoi`, and a conversion error panics (modelled `none`). -/
def extractDependOns (body : String) : Option (List Int) :=
  (captures body.data).mapM AtoiGo


/-! ## The data model and the external collaborators

`PullRequest` mirrors the JSON shape of `main.go` lines 239–251.  The
`gh`/`git` child processes are opaque: a `GhResult` is the observable outcome
of one `gh.ExecContext` call (captured stdout, captured stderr, and the
process error, i.e. `some e` exactly when the exit status was non-zero), and a
`CmdResult` is the same for a raw `exec.Command` invocation. -/

/-- An abstract Go `error` value produced by a collaborator. -/
inductive GoErr
  | execFailed
  | unmarshalFailed
  deriving DecidableEq, Repr

/-- The observable outcome of one `gh.ExecContext` call: captured stdout and
stderr buffers and the call's own error (non-zero exit status). -/
structure GhResult where
  stdout : String
  stderrText : String
  err : Option GoErr
  deriving DecidableEq, Repr

/-- The observable outcome of one `exec.CommandContext(...).Run()`: the
captured stdout and stderr buffers and the run error. -/
structure CmdResult where
  stdout : String
  stderrText : String
  err : Option GoErr
  deriving DecidableEq, Repr

/-- The review-request record of `main.go` lines 239–251.  `mergeCommitOid`
is the nested `MergeCommit.Oid` field; JSON decoding leaves it `""` when the
response carries no merge commit. -/
structure PullRequest where
  baseRefName : String
  headRefName : String
  body : String
  isDraft : Bool
  number : Int
  title : String
  url : String
  state : String
  mergeCommitOid : String
  deriving DecidableEq, Repr

/-- `GetDefaultBranch` (`main.go` lines 253–274).  `parse` models
`json.Unmarshal` into the `defaultBranchRef` struct followed by reading its
`Name`.  The second `return "", err` of the source is reached when the exit
status was zero (`err == nil`) but stderr is non-empty, so it returns a `nil`
error. -/
def GetDefaultBranch (g : GhResult) (parse : String → Option String) :
    String × Option GoErr :=
  if g.err.isSome then ("", g.err)
  else if g.stderrText.length > 0 then ("", g.err)
  else
    match parse g.stdout with
    | none => ("", some GoErr.unmarshalFailed)
    | some b => (b, none)

/-- `ListPullRequests` (`main.go` lines 290–306), with the same
stderr-with-nil-error shape as `GetDefaultBranch`; `none` in the first
component is Go's `nil` slice. -/
def ListPullRequests (g : GhResult) (parse : String → Option (List PullRequest)) :
    Option (List PullRequest) × Option GoErr :=
  if g.err.isSome then (none, g.err)
  else if g.stderrText.length > 0 then (none, g.err)
  else
    match parse g.stdout with
    | none => (none, some GoErr.unmarshalFailed)
    | some prs => (some prs, none)

/-- `GetPullRequest` (`main.go` lines 308–325), with the same
stderr-with-nil-error shape; `none` in the first component is Go's `nil`
pointer. -/
def GetPullRequest (g : GhResult) (parse : String → Option PullRequest) :
    Option PullRequest × Option GoErr :=
  if g.err.isSome then (none, g.err)
  else if g.stderrText.length > 0 then (none, g.err)
  else
    match parse g.stdout with
    | none => (none, some GoErr.unmarshalFailed)
    | some pr => (some pr, none)

/-- `IsCurrentBranchDirty` (`main.go` lines 327–342): runs
`git status --porcelain` and reports whether captured stdout is non-empty. -/
def IsCurrentBranchDirty (c : CmdResult) : Bool × Option GoErr :=
  match c.err with
  | some e => (false, some e)
  | none => (c.stdout.length > 0, none)

/-- `CheckoutToPullRequest` (`main.go` lines 344–360): on a run error the
captured stderr text is wrapped around the error; on success nothing is
returned. -/
def CheckoutToPullRequest (c : CmdResult) : Option (String × GoErr) :=
  match c.err with
  | some e => some (c.stderrText, e)
  | none => none

/-- `strings.Contains` on the ASCII diagnostic texts of interest: the pattern
occurs as a contiguous run somewhere in the haystack. -/
def strContains (hay pat : String) : Bool :=
  (List.range (hay.data.length + 1)).any fun i => pat.data.isPrefixOf (hay.data.drop i)

/-- A classified rebase failure (`main.go` lines 375–379): a content conflict
(message built from the topic branch, the target base, and the first seven
characters of the old parent commit id), or the raw error wrapped with the
captured stderr text. -/
inductive RebaseErr
  | conflict (topicBranch targetBase shortHash : String)
  | failed (stderrText : String) (e : GoErr)
  deriving DecidableEq, Repr

/-- The result of one `RebaseOntoPullRequest` call.  `crashed` is the Go
panic raised by the slice expression `oldParent[:7]` when the old parent id
has fewer than seven bytes. -/
inductive RebaseOutcome
  | ok
  | err (e : RebaseErr)
  | crashed
  deriving DecidableEq, Repr

/-- `RebaseOntoPullRequest` (`main.go` lines 362–383).  The `Bool` component
records whether `git rebase --abort` was attempted; in the source the abort
runs first on the failure path, before the message is classified, so it is
attempted even on the `crashed` outcome, and its own result is discarded. -/
def RebaseOntoPullRequest (targetBase oldParent topicBranch : String)
    (res : CmdResult) : RebaseOutcome × Bool :=
  match res.err with
  | none => (RebaseOutcome.ok, false)
  | some e =>
    if strContains res.stderrText "could not apply" then
      if 7 ≤ oldParent.length then
        (RebaseOutcome.err (RebaseErr.conflict topicBranch targetBase (oldParent.take 7)), true)
      else
        (RebaseOutcome.crashed, true)
    else
      (RebaseOutcome.err (RebaseErr.failed res.stderrText e), true)

/-! ## The per-request pipeline of `main` (lines 112–191) -/

/-- The classified failure attached to a processed request, one constructor
per `fmt.Errorf` site of the loop (plus the sentinel `ErrNoDependOn`). -/
inductive PRError
  | noDependOn
  | multipleDeps (deps : List Int)
  | getFailed (n : Int) (e : GoErr)
  | notMerged (n : Int)
  | checkoutFailed (n : Int) (stderrText : String) (e : GoErr)
  | rebaseFailed (n : Int) (e : RebaseErr)
  deriving DecidableEq, Repr

/-- `ProcessedPullRequest` (`main.go` lines 385–390). -/
structure ProcessedPullRequest where
  pullRequest : PullRequest
  dependOns : List Int
  dependedPullRequest : Option PullRequest
  error : Option PRError
  deriving DecidableEq, Repr

/-- One external operation performed by the run, in order. -/
inductive Op
  | statusCheck
  | repoView
  | fetchOrigin (branch : String)
  | listPRs
  | getPR (n : Int)
  | checkout (n : Int)
  | rebase (targetBase oldParent topicBranch : String)
  | rebaseAbort
  deriving DecidableEq, Repr

def Op.isCheckout : Op → Bool
  | Op.checkout _ => true
  | _ => false

def Op.isRebase : Op → Bool
  | Op.rebase _ _ _ => true
  | _ => false

def Op.isGetPR : Op → Bool
  | Op.getPR _ => true
  | _ => false

/-- The outcomes of the external collaborators for one run: what each
`gh`/`git` invocation would return.  The required executables are assumed
present (`safeexec.LookPath` succeeding), which none of the claims vary. -/
structure World where
  gitStatus : CmdResult
  repoView : GhResult
  parseBranch : String → Option String
  fetchOrigin : String → Option GoErr
  prList : GhResult
  parseList : String → Option (List PullRequest)
  prView : Int → GhResult
  parsePR : String → Option PullRequest
  checkout : Int → CmdResult
  rebase : String → String → String → CmdResult

/-- The body of the processing loop (`main.go` lines 112–191) for one pull
request: the produced outcome (`none` when the iteration panics: an `Atoi`
range error at line 119, the nil dereference of `dependedPullRequest.State`
at line 158 after the stderr-with-nil-error return of `GetPullRequest`, or
the `oldParent[:7]` slice panic inside `RebaseOntoPullRequest`), paired with
the trace of external operations the iteration performed. -/
def processPR (w : World) (defaultBranch : String) (pr : PullRequest) :
    Option ProcessedPullRequest × List Op :=
  match extractDependOns pr.body with
  | none => (none, [])
  | some dependOns =>
    match dependOns with
    | [] =>
      (some ⟨pr, [], none, some PRError.noDependOn⟩, [])
    | d1 :: d2 :: rest =>
      (some ⟨pr, d1 :: d2 :: rest, none, some (PRError.multipleDeps (d1 :: d2 :: rest))⟩, [])
    | [dependOn] =>
      match GetPullRequest (w.prView dependOn) w.parsePR with
      | (_, some e) =>
        (some ⟨pr, [dependOn], none, some (PRError.getFailed dependOn e)⟩, [Op.getPR dependOn])
      | (none, none) => (none, [Op.getPR dependOn])
      | (some dep, none) =>
        if dep.state ≠ "MERGED" then
          (some ⟨pr, [dependOn], none, some (PRError.notMerged dependOn)⟩, [Op.getPR dependOn])
        else
          match CheckoutToPullRequest (w.checkout pr.number) with
          | some ce =>
            (some ⟨pr, [dependOn], none, some (PRError.checkoutFailed dependOn ce.1 ce.2)⟩,
              [Op.getPR dependOn, Op.checkout pr.number])
          | none =>
            match RebaseOntoPullRequest ("origin/" ++ defaultBranch) dep.mergeCommitOid
                pr.headRefName
                (w.rebase ("origin/" ++ defaultBranch) dep.mergeCommitOid pr.headRefName) with
            | (RebaseOutcome.ok, _) =>
              (some ⟨pr, [dependOn], some dep, none⟩,
                [Op.getPR dependOn, Op.checkout pr.number,
                  Op.rebase ("origin/" ++ defaultBranch) dep.mergeCommitOid pr.headRefName])
            | (RebaseOutcome.err re, ab) =>
              (some ⟨pr, [dependOn], none, some (PRError.rebaseFailed dependOn re)⟩,
                [Op.getPR dependOn, Op.checkout pr.number,
                  Op.rebase ("origin/" ++ defaultBranch) dep.mergeCommitOid pr.headRefName] ++
                  if ab then [Op.rebaseAbort] else [])
            | (RebaseOutcome.crashed, ab) =>
              (none,
                [Op.getPR dependOn, Op.checkout pr.number,
                  Op.rebase ("origin/" ++ defaultBranch) dep.mergeCommitOid pr.headRefName] ++
                  if ab then [Op.rebaseAbort] else [])

/-- The whole processing loop over the fetched list, in order; a panic in any
iteration aborts the run (`none`), keeping the operations performed so far. -/
def processList (w : World) (defaultBranch : String) :
    List PullRequest → Option (List ProcessedPullRequest) × List Op
  | [] => (some [], [])
  | pr :: prs =>
    match processPR w defaultBranch pr with
    | (none, ops) => (none, ops)
    | (some o, ops) =>
      match processList w defaultBranch prs with
      | (none, ops2) => (none, ops ++ ops2)
      | (some os, ops2) => (some (o :: os), ops ++ ops2)

/-- The terminal state of one whole run of `main`. -/
inductive RunResult
  | fatalDirtyCheck (e : GoErr)
  | dirtyAbort
  | fatalDefaultBranch (e : GoErr)
  | fatalFetch (e : GoErr)
  | fatalList (e : GoErr)
  | noPullRequests
  | done (outcomes : List ProcessedPullRequest)
  | crashed
  deriving DecidableEq, Repr

/-- `main` (`main.go` lines 50–234): the dirty-branch guard, default-branch
resolution, `git fetch`, listing, the processing loop, and reporting (the
reporting itself only formats the outcome list).  A `nil` pull-request slice
with a `nil` error (the stderr bug of `ListPullRequests`) ranges like an
empty slice. -/
def runMain (w : World) : RunResult × List Op :=
  match IsCurrentBranchDirty w.gitStatus with
  | (_, some e) => (RunResult.fatalDirtyCheck e, [Op.statusCheck])
  | (true, none) => (RunResult.dirtyAbort, [Op.statusCheck])
  | (false, none) =>
    match GetDefaultBranch w.repoView w.parseBranch with
    | (_, some e) => (RunResult.fatalDefaultBranch e, [Op.statusCheck, Op.repoView])
    | (defaultBranch, none) =>
      match w.fetchOrigin defaultBranch with
      | some e =>
        (RunResult.fatalFetch e, [Op.statusCheck, Op.repoView, Op.fetchOrigin defaultBranch])
      | none =>
        let ops0 := [Op.statusCheck, Op.repoView, Op.fetchOrigin defaultBranch, Op.listPRs]
        match ListPullRequests w.prList w.parseList with
        | (_, some e) => (RunResult.fatalList e, ops0)
        | (prsOpt, none) =>
          let prs := prsOpt.getD []
          if prs.length = 0 then (RunResult.noPullRequests, ops0)
          else
            match processList w defaultBranch prs with
            | (none, lops) => (RunResult.crashed, ops0 ++ lops)
            | (some os, lops) => (RunResult.done os, ops0 ++ lops)



/-! ## Concrete fixtures

Sample requests and collaborator worlds used to evaluate the embedding on
closed inputs. -/

/-- A dependency request still open (no merge yet). -/
def depOpen : PullRequest :=
  ⟨"main", "dep-branch", "", false, 5, "dep", "https://x/5", "OPEN", ""⟩

/-- A merged dependency request whose response carries no merge-commit id. -/
def depMergedNoOid : PullRequest :=
  ⟨"main", "dep-branch", "", false, 5, "dep", "https://x/5", "MERGED", ""⟩

/-- A merged dependency request with a recorded merge-commit id. -/
def depMerged : PullRequest :=
  ⟨"main", "dep-branch", "", false, 5, "dep", "https://x/5", "MERGED", "abc1234def56789"⟩

/-- A request declaring exactly one dependency. -/
def prSingle : PullRequest :=
  ⟨"main", "feat", "Depends on: #5", false, 10, "feature", "https://x/10", "OPEN", ""⟩

/-- A request declaring no dependency. -/
def prNoDep : PullRequest :=
  ⟨"main", "feat2", "just a description", false, 11, "f2", "https://x/11", "OPEN", ""⟩

/-- A request declaring two dependencies. -/
def prMulti : PullRequest :=
  ⟨"main", "feat3", "depends on: #1 and depends on: #2", false, 12, "f3", "https://x/12", "OPEN", ""⟩

/-- A successful child-process invocation with empty output. -/
def okCmd : CmdResult := ⟨"", "", none⟩

/-- A world in which every collaborator call succeeds and the looked-up
dependency is `depOpen`. -/
def wOpenDep : World where
  gitStatus := okCmd
  repoView := ⟨"branchjson", "", none⟩
  parseBranch := fun _ => some "main"
  fetchOrigin := fun _ => none
  prList := ⟨"listjson", "", none⟩
  parseList := fun _ => some []
  prView := fun _ => ⟨"depjson", "", none⟩
  parsePR := fun _ => some depOpen
  checkout := fun _ => okCmd
  rebase := fun _ _ _ => okCmd

/-- Like `wOpenDep`, but the looked-up dependency is merged without a
recorded merge-commit id. -/
def wMergedNoOid : World := { wOpenDep with parsePR := fun _ => some depMergedNoOid }

/-- Like `wOpenDep`, but the looked-up dependency is merged with a recorded
merge-commit id. -/
def wMerged : World := { wOpenDep with parsePR := fun _ => some depMerged }

/-- Like `wOpenDep`, but `git status --porcelain` reports a modified file. -/
def wDirty : World := { wOpenDep with gitStatus := ⟨" M main.go", "", none⟩ }


/-! ## Parser lemmas: captures are digit runs, and matching is
case-insensitive -/

theorem charToNat_inj {a b : Char} (h : a.toNat = b.toNat) : a = b :=
  Char.ext (UInt32.eq_of_toBitVec_eq (BitVec.eq_of_toNat_eq h))

theorem isWs_comp_lowerChar : isWs ∘ lowerChar = isWs := by
  funext c
  exact isWs_lowerChar c

theorem isDigitC_comp_lowerChar : isDigitC ∘ lowerChar = isDigitC := by
  funext c
  exact isDigitC_lowerChar c

theorem map_lowerChar_of_all_digits (l : List Char) (h : ∀ x ∈ l, isDigitC x = true) :
    l.map lowerChar = l := by
  rw [List.map_congr_left fun a ha => lowerChar_eq_self_of_isDigitC a (h a ha), List.map_id']

theorem lowerChar_eq_hash_iff (c : Char) : lowerChar c = '#' ↔ c = '#' := by
  constructor
  · intro h
    have ht : (lowerChar c).toNat = 35 := by rw [h]; rfl
    rw [lowerChar_toNat] at ht
    apply charToNat_inj
    by_cases hu : 65 ≤ c.toNat ∧ c.toNat ≤ 90
    · rw [if_pos hu] at ht; omega
    · rw [if_neg hu] at ht; rw [ht]; rfl
  · intro h
    rw [h]
    rfl

theorem matchLit_map_lower (ps s : List Char) :
    matchLit ps (s.map lowerChar) = (matchLit ps s).map (List.map lowerChar) := by
  induction ps generalizing s with
  | nil => simp [matchLit]
  | cons p ps ih =>
    cases s with
    | nil => simp [matchLit]
    | cons c cs =>
      simp only [List.map_cons, matchLit, lowerChar_lowerChar]
      split
      · exact ih cs
      · rfl

theorem takeWs1_map_lower (s : List Char) :
    takeWs1 (s.map lowerChar) = (takeWs1 s).map (List.map lowerChar) := by
  cases s with
  | nil => rfl
  | cons c cs =>
    simp only [List.map_cons, takeWs1, isWs_lowerChar]
    split
    · rw [List.dropWhile_map, isWs_comp_lowerChar]
      rfl
    · rfl

theorem takeDigits1_map_lower (s : List Char) :
    takeDigits1 (s.map lowerChar) =
      (takeDigits1 s).map fun p => (p.1, p.2.map lowerChar) := by
  cases s with
  | nil => rfl
  | cons c cs =>
    simp only [List.map_cons, takeDigits1, isDigitC_lowerChar]
    split
    · next hd =>
      rw [List.takeWhile_map, List.dropWhile_map, isDigitC_comp_lowerChar,
        lowerChar_eq_self_of_isDigitC c hd,
        map_lowerChar_of_all_digits _ fun x hx => List.mem_takeWhile_imp hx]
      rfl
    · rfl

theorem matchTail_map_lower (s : List Char) :
    matchTail (s.map lowerChar) = (matchTail s).map fun p => (p.1, p.2.map lowerChar) := by
  unfold matchTail
  rw [takeWs1_map_lower]
  cases h1 : takeWs1 s with
  | none => rfl
  | some s1 =>
    simp only [Option.map_some']
    rw [matchLit_map_lower]
    cases h2 : matchLit [ 'o', 'n', ':'] s1 with
    | none => rfl
    | some s2 =>
      simp only [Option.map_some']
      rw [takeWs1_map_lower]
      cases h3 : takeWs1 s2 with
      | none => rfl
      | some s3 =>
        simp only [Option.map_some']
        cases s3 with
        | nil => rfl
        | cons c s4 =>
          simp only [List.map_cons]
          rw [if_congr (lowerChar_eq_hash_iff c) rfl rfl]
          split
          · exact takeDigits1_map_lower s4
          · rfl

theorem tryLit_map_lower (pat s0 : List Char) :
    tryLit pat (s0.map lowerChar) = (tryLit pat s0).map fun p => (p.1, p.2.map lowerChar) := by
  unfold tryLit
  rw [matchLit_map_lower]
  cases matchLit pat s0 with
  | none => rfl
  | some t =>
    simp only [Option.map_some', Option.some_bind]
    exact matchTail_map_lower t

theorem matchSuffix_map_lower (s0 : List Char) :
    matchSuffix (s0.map lowerChar) =
      (matchSuffix s0).map fun p => (p.1, p.2.map lowerChar) := by
  unfold matchSuffix
  rw [tryLit_map_lower]
  cases tryLit [ 's'] s0 with
  | some r => rfl
  | none =>
    simp only [Option.map_none']
    rw [tryLit_map_lower]
    cases tryLit [ 'e', 'd'] s0 with
    | some r => rfl
    | none =>
      simp only [Option.map_none']
      rw [tryLit_map_lower]
      cases tryLit [ 'i', 'n', 'g'] s0 with
      | some r => rfl
      | none =>
        simp only [Option.map_none']
        exact matchTail_map_lower s0

theorem matchAt_map_lower (s : List Char) :
    matchAt (s.map lowerChar) = (matchAt s).map fun p => (p.1, p.2.map lowerChar) := by
  unfold matchAt
  rw [matchLit_map_lower]
  cases matchLit [ 'd', 'e', 'p', 'e', 'n', 'd'] s with
  | none => rfl
  | some s0 => exact matchSuffix_map_lower s0

theorem scanAux_map_lower (fuel : Nat) (s : List Char) :
    scanAux fuel (s.map lowerChar) = scanAux fuel s := by
  induction fuel generalizing s with
  | zero => rfl
  | succ fuel ih =>
    cases s with
    | nil => rfl
    | cons c cs =>
      have hm := matchAt_map_lower (c :: cs)
      simp only [List.map_cons] at hm ⊢
      rw [scanAux, scanAux, hm]
      cases hma : matchAt (c :: cs) with
      | none =>
        simpa using ih cs
      | some p =>
        obtain ⟨ds, after⟩ := p
        simp only [Option.map_some']
        rw [ih after]

/-- Case-insensitivity of the extraction: folding the whole body to lower
case changes no capture. -/
theorem captures_map_lower (s : List Char) :
    captures (s.map lowerChar) = captures s := by
  unfold captures
  rw [List.length_map]
  exact scanAux_map_lower s.length s

theorem takeDigits1_digits {s ds rest : List Char} (h : takeDigits1 s = some (ds, rest)) :
    ds ≠ [] ∧ ds.all isDigitC = true := by
  cases s with
  | nil => simp [takeDigits1] at h
  | cons c cs =>
    simp only [takeDigits1] at h
    split at h
    · next hd =>
      simp only [Option.some.injEq, Prod.mk.injEq] at h
      refine ⟨by simp [← h.1], ?_⟩
      rw [← h.1]
      simp only [List.all_cons, hd, Bool.true_and, List.all_eq_true]
      exact fun x hx => List.mem_takeWhile_imp hx
    · exact absurd h (by simp)

theorem matchTail_digits {s : List Char} {ds rest : List Char}
    (h : matchTail s = some (ds, rest)) : ds ≠ [] ∧ ds.all isDigitC = true := by
  unfold matchTail at h
  split at h
  · exact absurd h (by simp)
  · split at h
    · exact absurd h (by simp)
    · split at h
      · exact absurd h (by simp)
      · split at h
        · exact absurd h (by simp)
        · split at h
          · exact takeDigits1_digits h
          · exact absurd h (by simp)

theorem tryLit_digits {pat s0 : List Char} {ds rest : List Char}
    (h : tryLit pat s0 = some (ds, rest)) : ds ≠ [] ∧ ds.all isDigitC = true := by
  unfold tryLit at h
  cases hl : matchLit pat s0 with
  | none => rw [hl] at h; simp at h
  | some t =>
    rw [hl] at h
    simp only [Option.some_bind] at h
    exact matchTail_digits h

theorem matchSuffix_digits {s0 : List Char} {ds rest : List Char}
    (h : matchSuffix s0 = some (ds, rest)) : ds ≠ [] ∧ ds.all isDigitC = true := by
  unfold matchSuffix at h
  split at h
  · next r hr =>
    cases h
    exact tryLit_digits hr
  · split at h
    · next r hr =>
      cases h
      exact tryLit_digits hr
    · split at h
      · next r hr =>
        cases h
        exact tryLit_digits hr
      · exact matchTail_digits h

theorem matchAt_digits {s : List Char} {ds rest : List Char}
    (h : matchAt s = some (ds, rest)) : ds ≠ [] ∧ ds.all isDigitC = true := by
  unfold matchAt at h
  split at h
  · exact absurd h (by simp)
  · exact matchSuffix_digits h

theorem scanAux_digits (fuel : Nat) (s : List Char) :
    ∀ ds ∈ scanAux fuel s, ds ≠ [] ∧ ds.all isDigitC = true := by
  induction fuel generalizing s with
  | zero => simp [scanAux]
  | succ fuel ih =>
    cases s with
    | nil => simp [scanAux]
    | cons c cs =>
      rw [scanAux]
      cases hm : matchAt (c :: cs) with
      | none => exact ih cs
      | some p =>
        intro ds hds
        rcases List.mem_cons.mp hds with h | h
        · subst h
          obtain ⟨d1, d2⟩ := p
          exact matchAt_digits hm
        · exact ih p.2 ds h

/-- Every capture group of the pattern is a non-empty run of digits. -/
theorem captures_digits (s : List Char) :
    ∀ ds ∈ captures s, ds ≠ [] ∧ ds.all isDigitC = true :=
  scanAux_digits s.length s

/-! ## Claim C1 — dependency extraction -/

/-- C1 (counterexample): the claim's own example body "Depends on #123" is
NOT matched — the compiled pattern requires a colon (`on:`) between the
phrase and the reference, so extraction returns the empty list, not
`[123]`. -/
theorem c1_counterexample :
    refNums "Depends on #123" = [] ∧ refNums "Depends on #123" ≠ [123] :=
  ⟨by decide, by decide⟩

/-- C1 (amended): extraction is case-insensitive (folding the body to lower
case changes no capture), returns the referenced integers in order of first
appearance with duplicates included, ignores non-matching text, and matches
the phrase family "depend", "depends", "depended", "depending", each followed
by whitespace, `on:` (colon required), whitespace and `#<digits>` — e.g.
"Depends on: #123"; the same phrases without the colon do not match. -/
theorem c1_extraction_behavior :
    (∀ s : List Char, captures (s.map lowerChar) = captures s) ∧
    refNums "Depends on: #123, later DEPENDED ON: #4, depending on: #123 and depends on #99" =
      [123, 4, 123] ∧
    refNums "depend on: #7" = [7] ∧
    refNums "DEPEND ON: #101" = [101] :=
  ⟨captures_map_lower, by decide, by decide, by decide⟩

/-! ## Claim C2 — a non-empty diagnostic stream is NOT reported as failure

In all three query operations the source reads

  if stderr.Len() > 0 \x7b return "", err \x7d

at a point where `err` is necessarily `nil` (the non-nil case returned two
lines earlier), so a call that exits 0 while printing on stderr yields a
zero value WITH a nil error: the caller observes success.  For
`GetPullRequest` the zero value is a nil pointer, which `main` line 158 then
dereferences (`dependedPullRequest.State`) — a panic. -/

/-- C2 (code bug): on a call with exit status 0, usable stdout and a
non-empty stderr, each of the three query operations returns its zero value
with a `nil` error instead of reporting failure. -/
theorem c2_stderr_silently_ignored :
    GetDefaultBranch ⟨"branchjson", "warning: update available", none⟩
        (fun _ => some "main") = ("", none) ∧
    ListPullRequests ⟨"listjson", "warning: update available", none⟩
        (fun _ => some [prSingle]) = (none, none) ∧
    GetPullRequest ⟨"depjson", "warning: update available", none⟩
        (fun _ => some depMerged) = (none, none) :=
  ⟨rfl, rfl, rfl⟩

/-! ## Claim C4 — captures are digit strings, but conversion can fail -/

theorem atoiGo_isSome_of (ds : List Char) (h1 : ds ≠ []) (h2 : ds.all isDigitC = true)
    (h3 : digitsToNat ds ≤ goMaxInt) : (AtoiGo ds).isSome = true := by
  unfold AtoiGo
  rw [if_pos ⟨h1, h2⟩, if_pos h3]
  rfl

theorem mapM_atoiGo_isSome (l : List (List Char))
    (h : ∀ ds ∈ l, (AtoiGo ds).isSome = true) : (l.mapM AtoiGo).isSome = true := by
  induction l with
  | nil => rfl
  | cons a l ih =>
    rw [List.mapM_cons]
    obtain ⟨v, hv⟩ := Option.isSome_iff_exists.mp (h a (List.mem_cons_self a l))
    obtain ⟨vs, hvs⟩ :=
      Option.isSome_iff_exists.mp (ih fun ds hds => h ds (List.mem_cons_of_mem a hds))
    simp [hv, hvs, show List.mapM.loop AtoiGo l [] = some vs from hvs]

/-- C4 (counterexample): the pattern accepts a 19-digit reference whose value
exceeds the 64-bit `int` maximum; the capture is extracted, but
`strconv.Atoi` returns a range error and `main.go` line 119 panics, so
extraction does abort the program on this body. -/
theorem c4_counterexample :
    refNums "depends on: #9223372036854775808" = [9223372036854775808] ∧
    extractDependOns "depends on: #9223372036854775808" = none :=
  ⟨by decide, by decide⟩

/-- C4 (amended): every captured group is a non-empty digit string, so no
syntax error can occur; but conversion is only infallible for captures whose
numeric value fits a 64-bit `int` (at most 9223372036854775807) — for larger
values `strconv.Atoi` reports a range error and the program panics. -/
theorem c4_captures_digits_conversion_bounded :
    (∀ body : String, ∀ ds ∈ captures body.data, ds ≠ [] ∧ ds.all isDigitC = true) ∧
    ∀ body : String, (∀ ds ∈ captures body.data, digitsToNat ds ≤ goMaxInt) →
      (extractDependOns body).isSome = true := by
  constructor
  · intro body
    exact captures_digits body.data
  · intro body h
    unfold extractDependOns
    apply mapM_atoiGo_isSome
    intro ds hds
    obtain ⟨h1, h2⟩ := captures_digits body.data ds hds
    exact atoiGo_isSome_of ds h1 h2 (h ds hds)

/-- C4 witness: the amended theorem applied to a small concrete body. -/
theorem c4_witness : (extractDependOns "fix: depends on: #42").isSome = true :=
  c4_captures_digits_conversion_bounded.2 "fix: depends on: #42" (by decide)

/-! ## Claim C3 — one outcome per fetched request -/

/-- C3: when the processing loop completes (no iteration panics), it appends
exactly one outcome per fetched request — no request is dropped — and each
outcome carries exactly one of a nil error (successful rebase) or a non-nil
classified failure. -/
theorem c3_outcome_count (w : World) (db : String) (prs : List PullRequest)
    (out : List ProcessedPullRequest) (ops : List Op)
    (h : processList w db prs = (some out, ops)) :
    out.length = prs.length ∧
      ∀ o ∈ out, (o.error = none ∨ o.error.isSome = true) ∧
        ¬(o.error = none ∧ o.error.isSome = true) := by
  constructor
  · induction prs generalizing out ops with
    | nil =>
      simp only [processList, Prod.mk.injEq, Option.some.injEq] at h
      rw [← h.1]
      rfl
    | cons pr prs ih =>
      rw [processList] at h
      rcases hp : processPR w db pr with ⟨o1, ops1⟩
      rw [hp] at h
      cases o1 with
      | none => simp at h
      | some o =>
        rcases hl : processList w db prs with ⟨os2, ops2⟩
        rw [hl] at h
        cases os2 with
        | none => simp at h
        | some os =>
          simp only [Prod.mk.injEq, Option.some.injEq] at h
          rw [← h.1]
          simp [ih os ops2 hl]
  · intro o _
    constructor
    · cases he : o.error
      · exact Or.inl rfl
      · exact Or.inr rfl
    · rintro ⟨h1, h2⟩
      rw [h1] at h2
      simp at h2

/-- C3 witness: one fetched request, one outcome. -/
theorem c3_witness :
    ([⟨prNoDep, [], none, some PRError.noDependOn⟩] : List ProcessedPullRequest).length =
        [prNoDep].length ∧
      ∀ o ∈ ([⟨prNoDep, [], none, some PRError.noDependOn⟩] : List ProcessedPullRequest),
        (o.error = none ∨ o.error.isSome = true) ∧
          ¬(o.error = none ∧ o.error.isSome = true) :=
  c3_outcome_count wOpenDep "main" [prNoDep]
    [⟨prNoDep, [], none, some PRError.noDependOn⟩] [] (by decide)

/-! ## Claim C5 — an unmerged dependency stops before checkout and rebase -/

/-- C5: a request with exactly one extracted reference whose fetched
dependency is not in the merged state is classified "not merged", and the
iteration performs neither a checkout nor a rebase. -/
theorem c5_dependency_not_merged (w : World) (db : String) (pr : PullRequest)
    (d : Int) (dep : PullRequest)
    (hx : extractDependOns pr.body = some [d])
    (hg : GetPullRequest (w.prView d) w.parsePR = (some dep, none))
    (hs : dep.state ≠ "MERGED") :
    (processPR w db pr).1 = some ⟨pr, [d], none, some (PRError.notMerged d)⟩ ∧
      ∀ op ∈ (processPR w db pr).2, op.isCheckout = false ∧ op.isRebase = false := by
  have hp : processPR w db pr =
      (some ⟨pr, [d], none, some (PRError.notMerged d)⟩, [Op.getPR d]) := by
    unfold processPR
    simp only [hx, hg]
    simp [hs]
  rw [hp]
  refine ⟨rfl, ?_⟩
  intro op hop
  simp only [List.mem_singleton] at hop
  subst hop
  exact ⟨rfl, rfl⟩

/-- C5 witness: the unmerged dependency `depOpen` blocks `prSingle`. -/
theorem c5_witness :
    (processPR wOpenDep "main" prSingle).1 =
        some ⟨prSingle, [5], none, some (PRError.notMerged 5)⟩ ∧
      ∀ op ∈ (processPR wOpenDep "main" prSingle).2,
        op.isCheckout = false ∧ op.isRebase = false :=
  c5_dependency_not_merged wOpenDep "main" prSingle 5 depOpen
    (by decide) (by decide) (by decide)

/-! ## Claim C6 — classification by reference count -/

/-- C6: zero extracted references always yields the no-dependency failure
with no external operation at all (in particular no lookup); two or more
always yields the ambiguity failure carrying the full list, again with no
lookup, checkout or rebase. -/
theorem c6_zero_and_many (w : World) (db : String) (pr : PullRequest) :
    (extractDependOns pr.body = some [] →
      processPR w db pr = (some ⟨pr, [], none, some PRError.noDependOn⟩, [])) ∧
    ∀ ds, extractDependOns pr.body = some ds → 2 ≤ ds.length →
      processPR w db pr = (some ⟨pr, ds, none, some (PRError.multipleDeps ds)⟩, []) := by
  constructor
  · intro hx
    unfold processPR
    simp only [hx]
  · intro ds hx hlen
    cases ds with
    | nil => simp at hlen
    | cons d1 tl =>
      cases tl with
      | nil => simp at hlen
      | cons d2 rest =>
        unfold processPR
        simp only [hx]

/-- C6 witness: a request with no declaration and a request with two. -/
theorem c6_witness :
    processPR wOpenDep "main" prNoDep =
        (some ⟨prNoDep, [], none, some PRError.noDependOn⟩, []) ∧
      processPR wOpenDep "main" prMulti =
        (some ⟨prMulti, [1, 2], none, some (PRError.multipleDeps [1, 2])⟩, []) :=
  ⟨(c6_zero_and_many wOpenDep "main" prNoDep).1 (by decide),
   (c6_zero_and_many wOpenDep "main" prMulti).2 [1, 2] (by decide) (by decide)⟩

/-! ## Claim C7 — rebase failure handling -/

/-- C7 (amended): every failing rebase invocation attempts the abort
unconditionally before returning (its own result ignored), and is then
classified: a diagnostic containing "could not apply" yields the conflict
error carrying the first seven characters of the old-parent commit id
PROVIDED that id has at least seven characters — with a shorter id the
message construction `oldParent[:7]` panics (after the abort attempt);
any other diagnostic yields the wrapped raw failure. -/
theorem c7_rebase_failure_handling (tb old top : String) (res : CmdResult) (e : GoErr)
    (he : res.err = some e) :
    (RebaseOntoPullRequest tb old top res).2 = true ∧
    (strContains res.stderrText "could not apply" = true → 7 ≤ old.length →
      RebaseOntoPullRequest tb old top res =
        (RebaseOutcome.err (RebaseErr.conflict top tb (old.take 7)), true)) ∧
    (strContains res.stderrText "could not apply" = true → old.length < 7 →
      RebaseOntoPullRequest tb old top res = (RebaseOutcome.crashed, true)) ∧
    (strContains res.stderrText "could not apply" = false →
      RebaseOntoPullRequest tb old top res =
        (RebaseOutcome.err (RebaseErr.failed res.stderrText e), true)) := by
  unfold RebaseOntoPullRequest
  simp only [he]
  refine ⟨?_, ?_, ?_, ?_⟩
  · split
    · split <;> rfl
    · rfl
  · intro hc hlen
    rw [if_pos hc, if_pos hlen]
  · intro hc hlen
    rw [if_pos hc, if_neg (by omega)]
  · intro hc
    rw [if_neg (by simp [hc])]

/-- C7 (counterexample): a failing rebase whose diagnostic contains the
conflict indicator but whose old-parent id has fewer than seven characters
does NOT return a conflict error — the message construction panics (the
abort had already been attempted). -/
theorem c7_counterexample :
    RebaseOntoPullRequest "origin/main" "abc" "feat"
        ⟨"", "error: could not apply f00dfee", some GoErr.execFailed⟩ =
      (RebaseOutcome.crashed, true) := by decide

/-- C7 witness: the amended theorem at a concrete conflicting failure with a
long enough old-parent id. -/
theorem c7_witness :
    RebaseOntoPullRequest "origin/main" "abc1234def56789" "feat"
        ⟨"", "error: could not apply f00dfee", some GoErr.execFailed⟩ =
      (RebaseOutcome.err
          (RebaseErr.conflict "feat" "origin/main" ("abc1234def56789".take 7)), true) :=
  (c7_rebase_failure_handling "origin/main" "abc1234def56789" "feat"
      ⟨"", "error: could not apply f00dfee", some GoErr.execFailed⟩ GoErr.execFailed rfl).2.1
    (by decide) (by decide)

/-! ## Claim C8 — what is true when the rebase executor runs -/

/-- C8 (counterexample): the loop checks only the lifecycle state, never the
merge-commit id, so a dependency reported MERGED with an empty id reaches the
rebase executor with an empty old-parent argument. -/
theorem c8_counterexample :
    (processPR wMergedNoOid "main" prSingle).2 =
        [Op.getPR 5, Op.checkout 10, Op.rebase "origin/main" "" "feat"] ∧
      ¬ 7 ≤ ("" : String).length :=
  ⟨by decide, by decide⟩

/-- C8 (amended): whenever the rebase executor is invoked, the request had
exactly one extracted reference, its dependency was fetched successfully and
is in the merged state, and the old-parent argument is exactly the
dependency's recorded merge-commit id — but that id is NOT validated to be
non-empty or at least seven characters long. -/
theorem c8_rebase_args (w : World) (db : String) (pr : PullRequest)
    (b old h : String) (hmem : Op.rebase b old h ∈ (processPR w db pr).2) :
    ∃ d dep, extractDependOns pr.body = some [d] ∧
      GetPullRequest (w.prView d) w.parsePR = (some dep, none) ∧
      dep.state = "MERGED" ∧ b = "origin/" ++ db ∧
      old = dep.mergeCommitOid ∧ h = pr.headRefName := by
  unfold processPR at hmem
  split at hmem
  · simp at hmem
  · rename_i ds hE
    split at hmem
    · simp at hmem
    · simp at hmem
    · rename_i dependOn
      split at hmem
      · simp at hmem
      · simp at hmem
      · rename_i dep hG
        split at hmem
        · simp at hmem
        · rename_i hS
          split at hmem
          · simp at hmem
          · rename_i hC
            split at hmem
            · rename_i hR
              simp at hmem
              exact ⟨dependOn, dep, hE, hG, not_not.mp hS, hmem.1, hmem.2.1, hmem.2.2⟩
            · rename_i re ab hR
              cases ab
              · simp at hmem
                exact ⟨dependOn, dep, hE, hG, not_not.mp hS, hmem.1, hmem.2.1, hmem.2.2⟩
              · simp at hmem
                exact ⟨dependOn, dep, hE, hG, not_not.mp hS, hmem.1, hmem.2.1, hmem.2.2⟩
            · rename_i ab hR
              cases ab
              · simp at hmem
                exact ⟨dependOn, dep, hE, hG, not_not.mp hS, hmem.1, hmem.2.1, hmem.2.2⟩
              · simp at hmem
                exact ⟨dependOn, dep, hE, hG, not_not.mp hS, hmem.1, hmem.2.1, hmem.2.2⟩

/-- C8 witness: the amended theorem at the merged-without-id fixture. -/
theorem c8_witness :
    ∃ d dep, extractDependOns prSingle.body = some [d] ∧
      GetPullRequest (wMergedNoOid.prView d) wMergedNoOid.parsePR = (some dep, none) ∧
      dep.state = "MERGED" ∧ ("origin/main" : String) = "origin/" ++ "main" ∧
      ("" : String) = dep.mergeCommitOid ∧ ("feat" : String) = prSingle.headRefName :=
  c8_rebase_args wMergedNoOid "main" prSingle "origin/main" "" "feat" (by decide)

/-! ## Claim C9 — the dirty-branch guard runs first -/

/-- C9: when `git status --porcelain` succeeds with non-empty output, the run
aborts at once: the status check is the only operation performed — no
default-branch resolution, no fetch, no listing, no per-request work. -/
theorem c9_dirty_abort (w : World) (he : w.gitStatus.err = none)
    (hd : 0 < w.gitStatus.stdout.length) :
    runMain w = (RunResult.dirtyAbort, [Op.statusCheck]) := by
  simp [runMain, IsCurrentBranchDirty, he, hd]

/-- C9 witness: a concrete dirty world. -/
theorem c9_witness : runMain wDirty = (RunResult.dirtyAbort, [Op.statusCheck]) :=
  c9_dirty_abort wDirty rfl (by decide)

/-! ## Claim C10 — a nil error exactly when a dependency snapshot is kept -/

theorem processPR_error_iff_dep (w : World) (db : String) (pr : PullRequest)
    (o : ProcessedPullRequest) (ops : List Op) (hp : processPR w db pr = (some o, ops)) :
    o.error = none ↔ o.dependedPullRequest.isSome = true := by
  unfold processPR at hp
  split at hp
  · simp at hp
  · split at hp
    · simp only [Prod.mk.injEq, Option.some.injEq] at hp
      rw [← hp.1]
      simp
    · simp only [Prod.mk.injEq, Option.some.injEq] at hp
      rw [← hp.1]
      simp
    · split at hp
      · simp only [Prod.mk.injEq, Option.some.injEq] at hp
        rw [← hp.1]
        simp
      · simp at hp
      · split at hp
        · simp only [Prod.mk.injEq, Option.some.injEq] at hp
          rw [← hp.1]
          simp
        · split at hp
          · simp only [Prod.mk.injEq, Option.some.injEq] at hp
            rw [← hp.1]
            simp
          · split at hp
            · simp only [Prod.mk.injEq, Option.some.injEq] at hp
              rw [← hp.1]
              simp
            · simp only [Prod.mk.injEq, Option.some.injEq] at hp
              rw [← hp.1]
              simp
            · simp at hp

/-- C10: in every completed outcome list, an entry has a nil error exactly
when it carries a resolved dependency snapshot; the reporter's success
section therefore only ever reads `DependedPullRequest` fields of entries
where that pointer is non-nil. -/
theorem c10_success_iff_dependency (w : World) (db : String) (prs : List PullRequest)
    (out : List ProcessedPullRequest) (ops : List Op)
    (h : processList w db prs = (some out, ops)) :
    ∀ o ∈ out, (o.error = none ↔ o.dependedPullRequest.isSome = true) := by
  induction prs generalizing out ops with
  | nil =>
    simp only [processList, Prod.mk.injEq, Option.some.injEq] at h
    rw [← h.1]
    simp
  | cons pr prs ih =>
    rw [processList] at h
    rcases hp : processPR w db pr with ⟨o1, ops1⟩
    rw [hp] at h
    cases o1 with
    | none => simp at h
    | some o =>
      rcases hl : processList w db prs with ⟨os2, ops2⟩
      rw [hl] at h
      cases os2 with
      | none => simp at h
      | some os =>
        simp only [Prod.mk.injEq, Option.some.injEq] at h
        rw [← h.1]
        intro o2 ho2
        rcases List.mem_cons.mp ho2 with rfl | hmem
        · exact processPR_error_iff_dep w db pr o2 ops1 hp
        · exact ih os ops2 hl o2 hmem

/-- C10 witness: the sole entry of a completed singleton outcome list. -/
theorem c10_witness :
    (ProcessedPullRequest.mk prSingle [5] none (some (PRError.notMerged 5))).error = none ↔
      (ProcessedPullRequest.mk prSingle [5] none
          (some (PRError.notMerged 5))).dependedPullRequest.isSome = true :=
  c10_success_iff_dependency wOpenDep "main" [prSingle]
    [⟨prSingle, [5], none, some (PRError.notMerged 5)⟩] [Op.getPR 5] (by decide)
    ⟨prSingle, [5], none, some (PRError.notMerged 5)⟩ (by decide)

/-! ## Sanity evaluations of the embedding on closed inputs -/

example : refNums "Depends on: #123" = [123] := by decide

example :
    refNums "depended ON: #4 DEPENDING on: #5 depend on: #6 depends on: #4" = [4, 5, 6, 4] := by
  decide

example : extractDependOns "depends on: #12" = some [12] := by decide

example :
    processPR wMerged "main" prSingle =
      (some ⟨prSingle, [5], some depMerged, none⟩,
        [Op.getPR 5, Op.checkout 10, Op.rebase "origin/main" "abc1234def56789" "feat"]) := by
  decide
